import Mathlib

/-! # waveforms

A shallow embedding of `waveforms.go`: the four generator formulas with the
real-number meaning of their `float64` arithmetic, and the start/stop lifecycle
of a `Waveform` as explicit state passing over the instance and the runtime
resources (channels, tickers, goroutines) that its calls create.

Conventions.

* `float64` values are finite real numbers and the formulas of the generators
  are read with exact arithmetic, with two exceptions that are modelled: the
  remainder `math.Mod`, which float64 computes exactly, and the halving of the
  wavelength in `square`, which float64 rounds when the quotient is subnormal
  (`half64`). The rounding of the other operations and of the library functions
  `math.Sin`, `math.Asin`, `math.Tan` and `math.Atan`, and overflow, are not
  modelled. The statements below about `sine`, `triangle` and `sawtooth` are
  therefore kept to those that the exact reading decides: values with a
  margin, inequalities with a margin, and identities stated over the reals.
  A zero wavelength (where Go yields an infinity or a NaN) is outside the
  model.
* `int64` values are integers, and `wrap64` is the two's complement wrap-around
  of an `int64` product.
* A Go panic is the `error` side of `Except Panic`.
* A nil pointer or nil channel is `none`.
-/

namespace waveforms

/-! ## Generators -/

/-- The type `generator`: a periodic waveform generator function of
`wavelength`, `amplitude`, `phase` and `t`. -/
abbrev generator := ℝ → ℝ → ℝ → ℝ → ℝ

/-- Truncation of a real number toward zero. -/
noncomputable def trunc (x : ℝ) : ℤ := if 0 ≤ x then ⌊x⌋ else ⌈x⌉

/-- The library function `math.Mod(x, y)` for `y ≠ 0`: the remainder of `x / y` whose
sign agrees with that of `x`, namely `x - y * trunc (x / y)`. -/
noncomputable def Mod (x y : ℝ) : ℝ := x - y * (trunc (x / y) : ℝ)

/-- The sine waveform generator. -/
noncomputable def sine : generator := fun wavelength amplitude phase t =>
  amplitude * Real.sin ((2 * Real.pi * t - phase) / wavelength)

/-- Rounding of a real number to the nearest integer, a tie going to the even
one. -/
noncomputable def roundEven (z : ℝ) : ℤ :=
  if z - ⌊z⌋ < 1 / 2 then ⌊z⌋
  else if 1 / 2 < z - ⌊z⌋ then ⌊z⌋ + 1
  else if Even ⌊z⌋ then ⌊z⌋ else ⌊z⌋ + 1

/-- The float64 quotient `x / 2.0`. Halving a float64 of magnitude at least
`2 ^ (-1021)` only lowers its exponent and is exact. Below that the quotient
is subnormal: it is rounded to the nearest multiple of `2 ^ (-1074)`, ties to
even, so that the smallest positive float64, `2 ^ (-1074)`, halves to 0. -/
noncomputable def half64 (x : ℝ) : ℝ :=
  if 1 / 2 ^ 1021 ≤ |x| then x / 2
  else (roundEven (x / 2 * 2 ^ 1074) : ℝ) / 2 ^ 1074

/-- The square waveform generator. The remainder is compared with the
float64 half of the wavelength. The difference `t - phase` is exact here; in
float64 it is when the phase is 0 or both are small integers, as in every
statement below that evaluates `square`. -/
noncomputable def square : generator := fun wavelength amplitude phase t =>
  if Mod (t - phase) wavelength < half64 wavelength then amplitude else -amplitude

/-- The triangle waveform generator, in exact arithmetic. The float64 code
rounds `2 * amplitude / math.Pi` and the product, so its values agree with
these up to rounding only. -/
noncomputable def triangle : generator := fun wavelength amplitude phase t =>
  2 * amplitude / Real.pi * Real.arcsin (Real.sin ((2 * Real.pi * t - phase) / wavelength))

/-- The sawtooth waveform generator, in exact arithmetic. Where the argument
of the tangent is an odd multiple of `π / 2` the tangent has no value and this
definition means nothing (see `sawtoothValue`); the float64 code, whose angle
is never exactly at a pole, returns `amplitude` or `-amplitude` there,
according to the rounding of the angle. -/
noncomputable def sawtooth : generator := fun wavelength amplitude phase t =>
  2 * amplitude / Real.pi *
    Real.arctan (Real.tan ((2 * Real.pi * t - phase) / (2 * wavelength)))

/-- The value of the sawtooth formula over the reals, where it has one: none
at a pole of the tangent, where `cos` of its argument is 0. -/
noncomputable def sawtoothValue (wavelength amplitude phase t : ℝ) : Option ℝ :=
  if Real.cos ((2 * Real.pi * t - phase) / (2 * wavelength)) = 0 then none
  else some (sawtooth wavelength amplitude phase t)

/-! ## Runtime model -/

/-- The ways a call can panic. -/
inductive Panic where
  /-- The panic of `time.NewTicker` on a duration `d <= 0`. -/
  | nonPositiveInterval
  /-- The run-time panic of a nil pointer dereference. -/
  | nilDereference
  deriving DecidableEq, Repr

/-- A `time.Ticker` on the heap: which allocation it is, its period in
nanoseconds, and whether `Stop` has been called on it. -/
structure Ticker where
  id : Nat
  d : Int
  stopped : Bool
  deriving DecidableEq, Repr

/-- The struct `Waveform`. The field `ticker` is a pointer: `none` is nil. -/
structure Waveform where
  wavelength : ℝ
  amplitude : ℝ
  phase : ℝ
  ticker : Option Ticker
  flowRunning : Bool

/-- A goroutine started by `run`: the channel it sends on and the generator
it evaluates at each tick. -/
structure Producer where
  out : Nat
  g : generator

/-- The resources created so far: `chans` channels were allocated by
`make(chan float64)` (they are numbered `0 .. chans - 1`), `tickers` tickers by
`time.NewTicker`, and `producers` are the goroutines started by `run`. -/
structure Runtime where
  chans : Nat
  tickers : Nat
  producers : List Producer

/-- What a call of `run` hands back: the named results `out` and `err`, with
the instance and the runtime as the call leaves them. -/
structure RunResult where
  wv : Waveform
  rt : Runtime
  out : Option Nat
  err : Option String

/-- Two's complement wrap-around of an integer to the `int64` range. -/
def wrap64 (n : Int) : Int := (n + 2 ^ 63) % 2 ^ 64 - 2 ^ 63

/-- The constant `time.Millisecond`, in nanoseconds. -/
def Millisecond : Int := 1000000

/-- The library function `time.NewTicker(d)`: panics when `d <= 0`, otherwise
allocates a running ticker of period `d`. -/
def NewTicker (rt : Runtime) (d : Int) : Except Panic (Ticker × Runtime) :=
  if d ≤ 0 then .error Panic.nonPositiveInterval
  else .ok ({ id := rt.tickers, d := d, stopped := false },
            { rt with tickers := rt.tickers + 1 })

/-- The library method `(*time.Ticker).Stop`: dereferences its receiver, then turns the
ticker off. It does not close the ticker's channel. -/
def Ticker.Stop : Option Ticker → Except Panic Ticker
  | none => .error Panic.nilDereference
  | some tk => .ok { tk with stopped := true }

/-- The constructor `NewWaveform`: the three parameters as given, the other fields at
their zero values. -/
def NewWaveform (wavelength amplitude phase : ℝ) : Waveform :=
  { wavelength := wavelength, amplitude := amplitude, phase := phase,
    ticker := none, flowRunning := false }

/-- The method `run`. The channel is allocated first; a running instance gets it
back with the error; otherwise the ticker is armed with
`time.Duration(interval) * time.Millisecond`, the flag is set and the producer
goroutine is started. -/
def run (wv : Waveform) (rt : Runtime) (interval : Int) (g : generator) :
    Except Panic RunResult :=
  let out := rt.chans
  let rt1 : Runtime := { rt with chans := rt.chans + 1 }
  if wv.flowRunning then
    .ok { wv := wv, rt := rt1, out := some out, err := some "waveform is running already" }
  else
    match NewTicker rt1 (wrap64 (interval * Millisecond)) with
    | .error p => .error p
    | .ok (tk, rt2) =>
      .ok { wv := { wv with ticker := some tk, flowRunning := true },
            rt := { rt2 with producers := rt2.producers ++ [{ out := out, g := g }] },
            out := some out, err := none }

/-- The method `Sine`. -/
noncomputable def Waveform.Sine (wv : Waveform) (t : ℝ) : ℝ :=
  sine wv.wavelength wv.amplitude wv.phase t

/-- The method `Square`. -/
noncomputable def Waveform.Square (wv : Waveform) (t : ℝ) : ℝ :=
  square wv.wavelength wv.amplitude wv.phase t

/-- The method `Triangle`. -/
noncomputable def Waveform.Triangle (wv : Waveform) (t : ℝ) : ℝ :=
  triangle wv.wavelength wv.amplitude wv.phase t

/-- The method `Sawtooth`. -/
noncomputable def Waveform.Sawtooth (wv : Waveform) (t : ℝ) : ℝ :=
  sawtooth wv.wavelength wv.amplitude wv.phase t

/-- The method `SineFlow`. -/
noncomputable def SineFlow (wv : Waveform) (rt : Runtime) (interval : Int) :
    Except Panic RunResult :=
  run wv rt interval sine

/-- The method `SquareFlow`. -/
noncomputable def SquareFlow (wv : Waveform) (rt : Runtime) (interval : Int) :
    Except Panic RunResult :=
  run wv rt interval square

/-- The method `TriangleFlow`. -/
noncomputable def TriangleFlow (wv : Waveform) (rt : Runtime) (interval : Int) :
    Except Panic RunResult :=
  run wv rt interval triangle

/-- The method `SawtoothFlow`. -/
noncomputable def SawtoothFlow (wv : Waveform) (rt : Runtime) (interval : Int) :
    Except Panic RunResult :=
  run wv rt interval sawtooth

/-- The method `StopFlow`: clears the flag, then stops the ticker. -/
def StopFlow (wv : Waveform) : Except Panic Waveform :=
  let wv1 : Waveform := { wv with flowRunning := false }
  match Ticker.Stop wv1.ticker with
  | .error p => .error p
  | .ok tk => .ok { wv1 with ticker := some tk }

/-- The largest number of milliseconds whose count of nanoseconds fits an
`int64`: `(2 ^ 63 - 1) / 1000000`. -/
def maxIntervalMillis : Int := 9223372036854

/-- The runtime before any call. -/
def Runtime.empty : Runtime := { chans := 0, tickers := 0, producers := [] }

/-- An instance as a successful start with a 10 ms interval leaves it: the
flag set and the first ticker armed. -/
def startedWaveform : Waveform :=
  { wavelength := 50, amplitude := 1, phase := 0,
    ticker := some { id := 0, d := 10000000, stopped := false }, flowRunning := true }

/-- The runtime after that first start: one channel, one ticker, one producer. -/
noncomputable def startedRuntime : Runtime :=
  { chans := 1, tickers := 1, producers := [{ out := 0, g := sine }] }

/-- The zero value `Waveform{}`. -/
def Waveform.zero : Waveform :=
  { wavelength := 0, amplitude := 0, phase := 0, ticker := none, flowRunning := false }

/-! ## Producer goroutine -/

/-- The timestamp that the producer passes to the generator for a tick at
`unixNano` nanoseconds since the epoch:
`v.UnixNano() / (int64(time.Millisecond) / int64(time.Nanosecond))`, an `int64`
division, which truncates toward zero. Its conversion to `float64` is exact,
the quotient being below `2 ^ 53` in absolute value. -/
def tickMillis (unixNano : Int) : Int := Int.tdiv unixNano (Int.tdiv Millisecond 1)

/-- The value the producer sends for a tick at `unixNano`. -/
noncomputable def produce (wv : Waveform) (g : generator) (unixNano : Int) : ℝ :=
  g wv.wavelength wv.amplitude wv.phase ((tickMillis unixNano : Int) : ℝ)

/-- Where the goroutine started by `run` stands: blocked in the receive
`<-wv.ticker.C`, blocked in the send `out <- x`, or past the loop with
`close(out)` executed. -/
inductive ProducerState where
  | receiving
  | sending (x : ℝ)
  | closed

/-- What can unblock the goroutine: a tick arrives on the ticker channel
(`ok` is true), a receive on a closed ticker channel returns (`ok` is false), or
the consumer takes the value offered on `out`. -/
inductive ProducerEvent where
  | tick (unixNano : Int)
  | tickerClosed
  | taken

/-- One step of the goroutine of `run`. The body of its `for` loop receives
from the ticker channel and, when `ok`, sends the generated value; then the loop
starts over. The loop has no condition, no `break` and no `return`, so no step
leads to the statement `close(out)` that follows it. An event that the
current state does not wait for changes nothing. -/
noncomputable def producerStep (wv : Waveform) (g : generator) :
    ProducerState → ProducerEvent → ProducerState
  | .receiving, .tick unixNano => .sending (produce wv g unixNano)
  | .receiving, .tickerClosed => .receiving
  | .sending _, .taken => .receiving
  | s, _ => s

/-- The goroutine of `run` after a sequence of events, from its first
receive. -/
noncomputable def producerRun (wv : Waveform) (g : generator)
    (events : List ProducerEvent) : ProducerState :=
  events.foldl (producerStep wv g) ProducerState.receiving

/-- The number of producer goroutines alive. A goroutine started by `run` never
returns (see `producerStep`), so these are all the producers started so
far. -/
def Runtime.live (rt : Runtime) : Nat := rt.producers.length

/-- The instances that have been started at least once: what a successful
call of `run` leaves, and what any later call of `run` or `StopFlow` that
returns leaves of such an instance. -/
inductive Started : Waveform → Prop
  | start {wv : Waveform} {rt : Runtime} {interval : Int} {g : generator} {r : RunResult} :
      run wv rt interval g = .ok r → r.err = none → Started r.wv
  | again {wv : Waveform} {rt : Runtime} {interval : Int} {g : generator} {r : RunResult} :
      Started wv → run wv rt interval g = .ok r → Started r.wv
  | stop {wv wv1 : Waveform} : Started wv → StopFlow wv = .ok wv1 → Started wv1

/-! ## Lifecycle -/

/-- On a running instance `run` returns the allocated channel with the error and
leaves the instance alone, whatever the interval and the generator. -/
theorem run_running (wv : Waveform) (rt : Runtime) (interval : Int) (g : generator)
    (h : wv.flowRunning = true) :
    run wv rt interval g =
      .ok { wv := wv, rt := { rt with chans := rt.chans + 1 }, out := some rt.chans,
            err := some "waveform is running already" } := by
  simp [run, h]

/-- On an idle instance `run` panics when the wrapped duration is not
positive. -/
theorem run_idle_panics (wv : Waveform) (rt : Runtime) (interval : Int) (g : generator)
    (h : wv.flowRunning = false) (hd : wrap64 (interval * Millisecond) ≤ 0) :
    run wv rt interval g = .error Panic.nonPositiveInterval := by
  simp [run, h, NewTicker, hd]

/-- On an idle instance `run` arms a fresh ticker with the wrapped duration
when that is positive, sets the flag and starts one producer. -/
theorem run_idle_wrapped (wv : Waveform) (rt : Runtime) (interval : Int) (g : generator)
    (h : wv.flowRunning = false) (hd : 0 < wrap64 (interval * Millisecond)) :
    run wv rt interval g =
      .ok { wv := { wv with
                    ticker := some { id := rt.tickers,
                                     d := wrap64 (interval * Millisecond),
                                     stopped := false },
                    flowRunning := true },
            rt := { chans := rt.chans + 1, tickers := rt.tickers + 1,
                    producers := rt.producers ++ [{ out := rt.chans, g := g }] },
            out := some rt.chans, err := none } := by
  have hd' : ¬ wrap64 (interval * Millisecond) ≤ 0 := not_le.mpr hd
  simp [run, h, NewTicker, hd']

/-- An interval between 1 and `maxIntervalMillis` is not changed by the
wrap-around of its count of nanoseconds. -/
theorem wrap64_interval (interval : Int) (hpos : 0 < interval)
    (hmax : interval ≤ maxIntervalMillis) :
    wrap64 (interval * Millisecond) = interval * 1000000 := by
  unfold wrap64 Millisecond
  unfold maxIntervalMillis at hmax
  omega

/-- On an idle instance and an interval whose nanosecond count fits an `int64`,
`run` arms a fresh ticker, sets the flag and starts one producer. -/
theorem run_idle (wv : Waveform) (rt : Runtime) (interval : Int) (g : generator)
    (h : wv.flowRunning = false) (hpos : 0 < interval)
    (hmax : interval ≤ maxIntervalMillis) :
    run wv rt interval g =
      .ok { wv := { wv with
                    ticker := some { id := rt.tickers, d := interval * 1000000,
                                     stopped := false },
                    flowRunning := true },
            rt := { chans := rt.chans + 1, tickers := rt.tickers + 1,
                    producers := rt.producers ++ [{ out := rt.chans, g := g }] },
            out := some rt.chans, err := none } := by
  have hw := wrap64_interval interval hpos hmax
  have hd : 0 < wrap64 (interval * Millisecond) := by rw [hw]; omega
  rw [run_idle_wrapped wv rt interval g h hd, hw]

/-- Claim C1: on an instance whose running flag is true, each of `SineFlow`,
`SquareFlow`, `TriangleFlow` and `SawtoothFlow`, with any interval, returns
normally with the non-nil error "waveform is running already" and leaves the
instance unchanged (so the flag stays true and the ticker is the one it
had). -/
theorem flow_on_running_returns_error (wv : Waveform) (rt : Runtime) (interval : Int)
    (h : wv.flowRunning = true) :
    ∀ flow ∈ [SineFlow, SquareFlow, TriangleFlow, SawtoothFlow],
      ∃ r : RunResult, flow wv rt interval = .ok r ∧
        r.err = some "waveform is running already" ∧ r.wv = wv ∧
        r.wv.flowRunning = true ∧ r.wv.ticker = wv.ticker := by
  intro flow hflow
  simp only [List.mem_cons, List.mem_singleton, List.not_mem_nil, or_false] at hflow
  rcases hflow with rfl | rfl | rfl | rfl <;>
    exact ⟨_, run_running wv rt interval _ h, rfl, rfl, h, rfl⟩

/-- Witness of `flow_on_running_returns_error`: a second start, 10 ms, on an
instance that a first start left running. -/
theorem flow_on_running_returns_error_witness :
    startedWaveform.flowRunning = true ∧
    ∀ flow ∈ [SineFlow, SquareFlow, TriangleFlow, SawtoothFlow],
      ∃ r : RunResult, flow startedWaveform startedRuntime 10 = .ok r ∧
        r.err = some "waveform is running already" ∧ r.wv = startedWaveform ∧
        r.wv.flowRunning = true ∧ r.wv.ticker = startedWaveform.ticker :=
  ⟨rfl, flow_on_running_returns_error startedWaveform startedRuntime 10 rfl⟩

/-- Claim C2, counterexample: positive `int64` intervals on which a start of
an idle instance does not do what the claim says. With 9223372036855 ms the
product with `time.Millisecond` wraps to a negative duration and `time.NewTicker`
panics; with 18446744073710 ms it wraps to 448384 ns, which is the period the
ticker gets. -/
theorem flow_on_idle_large_interval_counterexample :
    (0 : Int) < 9223372036855 ∧ (9223372036855 : Int) < 2 ^ 63 ∧
    (NewWaveform 50 1 0).flowRunning = false ∧
    SineFlow (NewWaveform 50 1 0) Runtime.empty 9223372036855 =
      .error Panic.nonPositiveInterval ∧
    (0 : Int) < 18446744073710 ∧ (18446744073710 : Int) < 2 ^ 63 ∧
    (∃ r : RunResult, SineFlow (NewWaveform 50 1 0) Runtime.empty 18446744073710 = .ok r ∧
      r.wv.ticker = some { id := 0, d := 448384, stopped := false } ∧
      (448384 : Int) ≠ 18446744073710 * Millisecond) := by
  have hw1 : wrap64 (9223372036855 * Millisecond) = -9223372036854551616 := by
    unfold wrap64 Millisecond; norm_num
  have hw2 : wrap64 (18446744073710 * Millisecond) = 448384 := by
    unfold wrap64 Millisecond; norm_num
  refine ⟨by norm_num, by norm_num, rfl, ?_, by norm_num, by norm_num, ?_⟩
  · exact run_idle_panics _ _ _ _ rfl (by rw [hw1]; norm_num)
  · refine ⟨_, run_idle_wrapped _ _ _ _ rfl (by rw [hw2]; norm_num), ?_, ?_⟩
    · simp [hw2, Runtime.empty]
    · unfold Millisecond; norm_num

/-- Claim C2, amended: on an instance whose running flag is false, and for
every interval with `0 < intervalMillis ≤ 9223372036854` (so that its count
of nanoseconds fits an `int64`), each of `SineFlow`, `SquareFlow`,
`TriangleFlow` and `SawtoothFlow` returns a nil error, sets the flag and arms
a running ticker whose period is positive and equal to
`intervalMillis * 1000000` ns. -/
theorem flow_on_idle_succeeds (wv : Waveform) (rt : Runtime) (interval : Int)
    (h : wv.flowRunning = false) (hpos : 0 < interval)
    (hmax : interval ≤ maxIntervalMillis) :
    ∀ flow ∈ [SineFlow, SquareFlow, TriangleFlow, SawtoothFlow],
      ∃ (r : RunResult) (tk : Ticker), flow wv rt interval = .ok r ∧
        r.err = none ∧ r.wv.flowRunning = true ∧ r.wv.ticker = some tk ∧
        tk.stopped = false ∧ 0 < tk.d ∧ tk.d = interval * Millisecond := by
  intro flow hflow
  have hd : 0 < interval * 1000000 := by omega
  simp only [List.mem_cons, List.mem_singleton, List.not_mem_nil, or_false] at hflow
  rcases hflow with rfl | rfl | rfl | rfl <;>
    exact ⟨_, _, run_idle wv rt interval _ h hpos hmax, rfl, rfl, rfl, rfl, hd, rfl⟩

/-- Witness of `flow_on_idle_succeeds`: a fresh instance started with 10 ms. -/
theorem flow_on_idle_succeeds_witness :
    (NewWaveform 1000 1 Real.pi).flowRunning = false ∧ (0 : Int) < 10 ∧
    (10 : Int) ≤ maxIntervalMillis ∧
    ∀ flow ∈ [SineFlow, SquareFlow, TriangleFlow, SawtoothFlow],
      ∃ (r : RunResult) (tk : Ticker),
        flow (NewWaveform 1000 1 Real.pi) Runtime.empty 10 = .ok r ∧
        r.err = none ∧ r.wv.flowRunning = true ∧ r.wv.ticker = some tk ∧
        tk.stopped = false ∧ 0 < tk.d ∧ tk.d = 10 * Millisecond :=
  ⟨rfl, by decide, by decide,
    flow_on_idle_succeeds (NewWaveform 1000 1 Real.pi) Runtime.empty 10 rfl
      (by decide) (by decide)⟩

/-- Claim C3, the code at the failing input: `StopFlow` on an instance fresh
from `NewWaveform`, whose ticker is still nil, panics on the nil pointer
instead of returning. -/
theorem stopFlow_never_started_panics (wavelength amplitude phase : ℝ) :
    StopFlow (NewWaveform wavelength amplitude phase) = .error Panic.nilDereference := by
  rfl

/-- Claim C4, counterexample: on an instance that was started and stopped, a
start with the positive `int64` interval 9223372036855 does not succeed; the
duration wraps to a negative number and `time.NewTicker` panics. -/
theorem restart_large_interval_counterexample :
    startedWaveform.flowRunning = true ∧
    (0 : Int) < 9223372036855 ∧ (9223372036855 : Int) < 2 ^ 63 ∧
    ∃ wv1 : Waveform, StopFlow startedWaveform = .ok wv1 ∧
      SquareFlow wv1 startedRuntime 9223372036855 = .error Panic.nonPositiveInterval := by
  have hw : wrap64 (9223372036855 * Millisecond) = -9223372036854551616 := by
    unfold wrap64 Millisecond; norm_num
  exact ⟨rfl, by norm_num, by norm_num, _, rfl,
    run_idle_panics _ _ _ _ rfl (by rw [hw]; norm_num)⟩

/-- Claim C4, amended: `StopFlow` on a running instance (flag set, ticker the
non-nil one its start armed) returns with the flag cleared and that ticker
stopped, and a start made after it, of any shape and with an interval
`0 < intervalMillis ≤ 9223372036854`, returns a nil error and sets the flag
again. -/
theorem stop_then_start_succeeds (wv : Waveform) (tk : Ticker) (rt : Runtime)
    (interval : Int) (_hrun : wv.flowRunning = true) (htk : wv.ticker = some tk)
    (hpos : 0 < interval) (hmax : interval ≤ maxIntervalMillis) :
    ∃ wv1 : Waveform, StopFlow wv = .ok wv1 ∧ wv1.flowRunning = false ∧
      wv1.ticker = some { tk with stopped := true } ∧
      ∀ flow ∈ [SineFlow, SquareFlow, TriangleFlow, SawtoothFlow],
        ∃ r : RunResult, flow wv1 rt interval = .ok r ∧ r.err = none ∧
          r.wv.flowRunning = true := by
  refine ⟨{ wv with flowRunning := false, ticker := some { tk with stopped := true } },
    ?_, rfl, rfl, ?_⟩
  · simp [StopFlow, htk, Ticker.Stop]
  · intro flow hflow
    simp only [List.mem_cons, List.mem_singleton, List.not_mem_nil, or_false] at hflow
    rcases hflow with rfl | rfl | rfl | rfl <;>
      exact ⟨_, run_idle _ rt interval _ rfl hpos hmax, rfl, rfl⟩

/-- Witness of `stop_then_start_succeeds`: the instance left running by a
first start is stopped and started again with 10 ms. -/
theorem stop_then_start_succeeds_witness :
    startedWaveform.flowRunning = true ∧
    startedWaveform.ticker = some { id := 0, d := 10000000, stopped := false } ∧
    (0 : Int) < 10 ∧ (10 : Int) ≤ maxIntervalMillis ∧
    ∃ wv1 : Waveform, StopFlow startedWaveform = .ok wv1 ∧ wv1.flowRunning = false ∧
      wv1.ticker = some { id := 0, d := 10000000, stopped := true } ∧
      ∀ flow ∈ [SineFlow, SquareFlow, TriangleFlow, SawtoothFlow],
        ∃ r : RunResult, flow wv1 startedRuntime 10 = .ok r ∧ r.err = none ∧
          r.wv.flowRunning = true :=
  ⟨rfl, rfl, by decide, by decide,
    stop_then_start_succeeds startedWaveform { id := 0, d := 10000000, stopped := false }
      startedRuntime 10 rfl rfl (by decide) (by decide)⟩

/-- Claim C5, counterexample: a start on a running instance allocates a
channel and returns it, not nil, with the error. Here the runtime had one
channel; the failing call makes it two and returns channel number 1. -/
theorem run_on_running_returns_channel_counterexample :
    startedWaveform.flowRunning = true ∧
    ∃ r : RunResult, run startedWaveform startedRuntime 10 sine = .ok r ∧
      r.err = some "waveform is running already" ∧ r.out = some 1 ∧ r.out ≠ none ∧
      startedRuntime.chans = 1 ∧ r.rt.chans = 2 :=
  ⟨rfl, _, run_running startedWaveform startedRuntime 10 sine rfl, rfl, rfl,
    by simp, rfl, rfl⟩

/-- Claim C5, amended: a call of `run` on an instance that is already running
allocates one new channel and returns it, not nil, together with the error;
no producer is started for that channel and no ticker is created, so nothing
is ever sent on it, and the instance is left as it was. -/
theorem run_on_running_no_producer (wv : Waveform) (rt : Runtime) (interval : Int)
    (g : generator) (h : wv.flowRunning = true) :
    ∃ r : RunResult, run wv rt interval g = .ok r ∧
      r.err = some "waveform is running already" ∧
      r.out = some rt.chans ∧ r.rt.chans = rt.chans + 1 ∧
      r.rt.producers = rt.producers ∧ r.rt.tickers = rt.tickers ∧ r.wv = wv :=
  ⟨_, run_running wv rt interval g h, rfl, rfl, rfl, rfl, rfl, rfl⟩

/-- Witness of `run_on_running_no_producer`: a second start on the instance
left running by a first one. -/
theorem run_on_running_no_producer_witness :
    startedWaveform.flowRunning = true ∧
    ∃ r : RunResult, run startedWaveform startedRuntime 10 square = .ok r ∧
      r.err = some "waveform is running already" ∧
      r.out = some startedRuntime.chans ∧ r.rt.chans = startedRuntime.chans + 1 ∧
      r.rt.producers = startedRuntime.producers ∧
      r.rt.tickers = startedRuntime.tickers ∧ r.wv = startedWaveform :=
  ⟨rfl, run_on_running_no_producer startedWaveform startedRuntime 10 square rfl⟩

/-! ## Values of the square wave -/

/-- Halving is exact from `2 ^ (-1021)` on. -/
theorem half64_of_normal (x : ℝ) (h : 1 / 2 ^ 1021 ≤ |x|) : half64 x = x / 2 := by
  unfold half64
  rw [if_pos h]

/-- Halving is exact for a number of magnitude at least 1. -/
theorem half64_of_one_le (x : ℝ) (h : 1 ≤ |x|) : half64 x = x / 2 := by
  apply half64_of_normal
  have h1 : (1 : ℝ) / 2 ^ 1021 ≤ 1 := by
    rw [div_le_one (by positivity)]
    exact one_le_pow₀ (by norm_num)
  linarith

/-- The square generator takes one of the two values `-amplitude` and
`amplitude`. -/
theorem square_eq_or (wavelength amplitude phase t : ℝ) :
    square wavelength amplitude phase t = -amplitude ∨
      square wavelength amplitude phase t = amplitude := by
  unfold square
  split_ifs
  · exact Or.inr rfl
  · exact Or.inl rfl

/-! ## Periodicity -/

/-- Shifting `t` by the wavelength adds a full turn to the argument of the
sine and triangle generators. -/
theorem angle_add_wavelength (wavelength phase t : ℝ) (hw : wavelength ≠ 0) :
    (2 * Real.pi * (t + wavelength) - phase) / wavelength =
      (2 * Real.pi * t - phase) / wavelength + 2 * Real.pi := by
  field_simp
  ring

/-- Shifting `t` by the wavelength adds half a turn to the argument of the
sawtooth generator. -/
theorem half_angle_add_wavelength (wavelength phase t : ℝ) (hw : wavelength ≠ 0) :
    (2 * Real.pi * (t + wavelength) - phase) / (2 * wavelength) =
      (2 * Real.pi * t - phase) / (2 * wavelength) + Real.pi := by
  field_simp
  ring

/-- Claim C8, counterexample: with wavelength 50 and phase 0, at `t = -25` the
argument of the tangent is `-π / 2`, and at `t + 50 = 25` it is `π / 2`. The
sawtooth has no real value at either, so there is no real number that both
`Sawtooth(-25 + 50)` and `Sawtooth(-25)` are equal to. -/
theorem sawtooth_pole_counterexample :
    (NewWaveform 50 1 0).wavelength ≠ 0 ∧
    sawtoothValue 50 1 0 (-25) = none ∧
    sawtoothValue 50 1 0 (-25 + 50) = none ∧
    ¬ ∃ v : ℝ, sawtoothValue 50 1 0 (-25 + 50) = some v ∧
      sawtoothValue 50 1 0 (-25) = some v := by
  have e1 : (2 * Real.pi * (-25) - 0) / (2 * 50) = -(Real.pi / 2) := by ring
  have e2 : (2 * Real.pi * (-25 + 50) - 0) / (2 * 50) = Real.pi / 2 := by ring
  have h1 : sawtoothValue 50 1 0 (-25) = none := by
    unfold sawtoothValue
    rw [e1, Real.cos_neg, Real.cos_pi_div_two]
    simp
  have h2 : sawtoothValue 50 1 0 (-25 + 50) = none := by
    unfold sawtoothValue
    rw [e2, Real.cos_pi_div_two]
    simp
  refine ⟨by simp [NewWaveform], h1, h2, ?_⟩
  rintro ⟨v, _, hv⟩
  rw [h1] at hv
  cases hv

/-- Claim C8, amended: for every wavelength ≠ 0, amplitude, phase and `t`,
exactly, over the reals, `Sine(t + wavelength) = Sine(t)` and
`Triangle(t + wavelength) = Triangle(t)`; and wherever the sawtooth has a value
at `t`, that is, wherever `(2π t - phase) / (2 wavelength)` is not an odd
multiple of `π / 2`, it has the same value at `t + wavelength`. -/
theorem periodic_where_defined (wv : Waveform) (t : ℝ) (hw : wv.wavelength ≠ 0) :
    wv.Sine (t + wv.wavelength) = wv.Sine t ∧
    wv.Triangle (t + wv.wavelength) = wv.Triangle t ∧
    (∀ v : ℝ, sawtoothValue wv.wavelength wv.amplitude wv.phase t = some v →
      sawtoothValue wv.wavelength wv.amplitude wv.phase (t + wv.wavelength) = some v ∧
      wv.Sawtooth t = v ∧ wv.Sawtooth (t + wv.wavelength) = v) := by
  have hsaw : sawtooth wv.wavelength wv.amplitude wv.phase (t + wv.wavelength) =
      sawtooth wv.wavelength wv.amplitude wv.phase t := by
    unfold sawtooth
    rw [half_angle_add_wavelength _ _ _ hw, Real.tan_periodic]
  refine ⟨?_, ?_, ?_⟩
  · unfold Waveform.Sine sine
    rw [angle_add_wavelength _ _ _ hw, Real.sin_add_two_pi]
  · unfold Waveform.Triangle triangle
    rw [angle_add_wavelength _ _ _ hw, Real.sin_add_two_pi]
  · intro v hv
    unfold sawtoothValue at hv
    split_ifs at hv with hc
    have hv' : sawtooth wv.wavelength wv.amplitude wv.phase t = v := Option.some.inj hv
    have hc' : ¬ Real.cos ((2 * Real.pi * (t + wv.wavelength) - wv.phase) /
        (2 * wv.wavelength)) = 0 := by
      rw [half_angle_add_wavelength _ _ _ hw, Real.cos_add_pi, neg_eq_zero]
      exact hc
    refine ⟨?_, hv', ?_⟩
    · unfold sawtoothValue
      rw [if_neg hc', hsaw, hv']
    · unfold Waveform.Sawtooth
      rw [hsaw, hv']

/-- Witness of `periodic_where_defined`: wavelength 50, amplitude 1, phase 0,
at `t = 1`. -/
theorem periodic_where_defined_witness :
    (NewWaveform 50 1 0).wavelength ≠ 0 ∧
    (NewWaveform 50 1 0).Sine (1 + (NewWaveform 50 1 0).wavelength) =
      (NewWaveform 50 1 0).Sine 1 ∧
    (NewWaveform 50 1 0).Triangle (1 + (NewWaveform 50 1 0).wavelength) =
      (NewWaveform 50 1 0).Triangle 1 ∧
    (∀ v : ℝ, sawtoothValue (NewWaveform 50 1 0).wavelength (NewWaveform 50 1 0).amplitude
        (NewWaveform 50 1 0).phase 1 = some v →
      sawtoothValue (NewWaveform 50 1 0).wavelength (NewWaveform 50 1 0).amplitude
        (NewWaveform 50 1 0).phase (1 + (NewWaveform 50 1 0).wavelength) = some v ∧
      (NewWaveform 50 1 0).Sawtooth 1 = v ∧
      (NewWaveform 50 1 0).Sawtooth (1 + (NewWaveform 50 1 0).wavelength) = v) :=
  ⟨by simp [NewWaveform],
    periodic_where_defined (NewWaveform 50 1 0) 1 (by simp [NewWaveform])⟩

/-- The sawtooth of the witness above has a value at `t = 1`: the argument of
its tangent, `π / 50`, is not a pole. -/
theorem sawtoothValue_at_one :
    sawtoothValue 50 1 0 1 = some ((NewWaveform 50 1 0).Sawtooth 1) := by
  have hpi : 0 < Real.pi := Real.pi_pos
  have e : (2 * Real.pi * 1 - 0) / (2 * 50) = Real.pi / 50 := by ring
  have hc : 0 < Real.cos (Real.pi / 50) :=
    Real.cos_pos_of_mem_Ioo ⟨by linarith, by linarith⟩
  unfold sawtoothValue
  rw [e, if_neg hc.ne.symm]
  rfl

/-- A real number of absolute value below 1 truncates to 0. -/
theorem trunc_eq_zero (x : ℝ) (h : |x| < 1) : trunc x = 0 := by
  have h1 := (abs_lt.mp h).1
  have h2 := (abs_lt.mp h).2
  unfold trunc
  split_ifs with h0
  · rw [Int.floor_eq_iff]
    constructor
    · simpa using h0
    · simpa using h2
  · rw [Int.ceil_eq_iff]
    constructor
    · simpa using h1
    · have : x ≤ 0 := le_of_lt (not_le.mp h0)
      simpa using this

/-- The remainder `Mod x y` is `x` itself when `|x| < y`, whatever the sign of
`x`. -/
theorem Mod_eq_self (x y : ℝ) (h : |x| < y) : Mod x y = x := by
  have hy : 0 < y := lt_of_le_of_lt (abs_nonneg x) h
  have hq : |x / y| < 1 := by
    rw [abs_div, abs_of_pos hy, div_lt_one hy]
    exact h
  unfold Mod
  rw [trunc_eq_zero _ hq]
  simp

/-- Claim C9, the code at the failing input: wavelength 50, amplitude 1,
phase 10 and `t = 1`. Here `t - phase = -9` is not a multiple of
`wavelength / 2 = 25`, and `Square(1) = 1` while `Square(1 + 50) = -1`: the
remainder of a negative `t - phase` is negative, hence below half the
wavelength, so the square wave is constant before the phase. -/
theorem square_not_periodic_before_phase :
    (0 : ℝ) < (NewWaveform 50 1 10).wavelength ∧
    (∀ k : ℤ, (1 : ℝ) - (NewWaveform 50 1 10).phase ≠
      (k : ℝ) * ((NewWaveform 50 1 10).wavelength / 2)) ∧
    (NewWaveform 50 1 10).Square 1 = 1 ∧
    (NewWaveform 50 1 10).Square (1 + (NewWaveform 50 1 10).wavelength) = -1 ∧
    (NewWaveform 50 1 10).Square (1 + (NewWaveform 50 1 10).wavelength) ≠
      (NewWaveform 50 1 10).Square 1 := by
  have hm1 : Mod ((1 : ℝ) - 10) 50 = 1 - 10 := Mod_eq_self _ _ (by norm_num [abs_lt])
  have hm2 : Mod ((1 : ℝ) + 50 - 10) 50 = 1 + 50 - 10 :=
    Mod_eq_self _ _ (by norm_num [abs_lt])
  have hh : half64 (50 : ℝ) = 50 / 2 := half64_of_one_le _ (by norm_num [abs_of_pos])
  have h1 : (NewWaveform 50 1 10).Square 1 = 1 := by
    simp only [Waveform.Square, NewWaveform, square, hm1, hh]
    norm_num
  have h2 : (NewWaveform 50 1 10).Square (1 + (NewWaveform 50 1 10).wavelength) = -1 := by
    simp only [Waveform.Square, NewWaveform, square, hm2, hh]
    norm_num
  refine ⟨by simp [NewWaveform], ?_, h1, h2, by rw [h1, h2]; norm_num⟩
  intro k hk
  simp only [NewWaveform] at hk
  have hk' : ((-9 : ℤ) : ℝ) = ((k * 25 : ℤ) : ℝ) := by
    push_cast
    linarith
  have := Int.cast_injective hk'
  omega

/-! ## Reference values of the sine wave -/


/-- Six decimals of `π / 50`. -/
theorem pi_div_fifty_bounds : (0.06283184 : ℝ) < Real.pi / 50 ∧ Real.pi / 50 < 0.06283186 := by
  have h1 := Real.pi_gt_d6
  have h2 := Real.pi_lt_d6
  constructor <;> norm_num at * <;> linarith

/-- Bounds on `sin (π / 50)` from the cubic approximation of the sine. -/
theorem sin_pi_div_fifty_bounds :
    (0.0627896 : ℝ) < Real.sin (Real.pi / 50) ∧ Real.sin (Real.pi / 50) < 0.0627914 := by
  obtain ⟨hlo, hhi⟩ := pi_div_fifty_bounds
  have h0 : (0 : ℝ) ≤ Real.pi / 50 := by linarith
  have habs : |Real.pi / 50| ≤ 1 := by rw [abs_of_nonneg h0]; linarith
  have hb := abs_le.mp (Real.sin_bound habs)
  rw [abs_of_nonneg h0] at hb
  have h3lo : (0.000248 : ℝ) < (Real.pi / 50) ^ 3 := by
    have := pow_lt_pow_left₀ hlo (by norm_num) (by norm_num : (3 : ℕ) ≠ 0)
    linarith [show (0.000248 : ℝ) < 0.06283184 ^ 3 by norm_num]
  have h3hi : (Real.pi / 50) ^ 3 < 0.0002481 := by
    have := pow_lt_pow_left₀ hhi h0 (by norm_num : (3 : ℕ) ≠ 0)
    linarith [show (0.06283186 : ℝ) ^ 3 < 0.0002481 by norm_num]
  have h4 : (Real.pi / 50) ^ 4 < 0.0000156 := by
    have := pow_lt_pow_left₀ hhi h0 (by norm_num : (4 : ℕ) ≠ 0)
    linarith [show (0.06283186 : ℝ) ^ 4 < 0.0000156 by norm_num]
  constructor <;> linarith [hb.1, hb.2]

/-- Bounds on `cos (π / 50)` from the quadratic approximation of the cosine. -/
theorem cos_pi_div_fifty_bounds :
    (0.9980252 : ℝ) < Real.cos (Real.pi / 50) ∧ Real.cos (Real.pi / 50) < 0.998027 := by
  obtain ⟨hlo, hhi⟩ := pi_div_fifty_bounds
  have h0 : (0 : ℝ) ≤ Real.pi / 50 := by linarith
  have habs : |Real.pi / 50| ≤ 1 := by rw [abs_of_nonneg h0]; linarith
  have hb := abs_le.mp (Real.cos_bound habs)
  rw [abs_of_nonneg h0] at hb
  have h2lo : (0.0039478 : ℝ) < (Real.pi / 50) ^ 2 := by
    have := pow_lt_pow_left₀ hlo (by norm_num) (by norm_num : (2 : ℕ) ≠ 0)
    linarith [show (0.0039478 : ℝ) < 0.06283184 ^ 2 by norm_num]
  have h2hi : (Real.pi / 50) ^ 2 < 0.0039479 := by
    have := pow_lt_pow_left₀ hhi h0 (by norm_num : (2 : ℕ) ≠ 0)
    linarith [show (0.06283186 : ℝ) ^ 2 < 0.0039479 by norm_num]
  have h4 : (Real.pi / 50) ^ 4 < 0.0000156 := by
    have := pow_lt_pow_left₀ hhi h0 (by norm_num : (4 : ℕ) ≠ 0)
    linarith [show (0.06283186 : ℝ) ^ 4 < 0.0000156 by norm_num]
  constructor <;> linarith [hb.1, hb.2]

/-- Bounds on `sin (π / 25)` by the double-angle formula. -/
theorem sin_pi_div_twenty_five_bounds :
    (0.12533 : ℝ) < Real.sin (2 * (Real.pi / 50)) ∧ Real.sin (2 * (Real.pi / 50)) < 0.12534 := by
  obtain ⟨hs1, hs2⟩ := sin_pi_div_fifty_bounds
  obtain ⟨hc1, hc2⟩ := cos_pi_div_fifty_bounds
  rw [Real.sin_two_mul]
  constructor
  · nlinarith
  · nlinarith

/-- Five decimals of the square root of 5. -/
theorem sqrt_five_bounds : (2.23606 : ℝ) < √5 ∧ √5 < 2.23607 := by
  constructor
  · rw [Real.lt_sqrt (by norm_num)]; norm_num
  · rw [Real.sqrt_lt' (by norm_num)]; norm_num

/-- Bounds on `sin (2π / 5)` from the closed form of `cos (π / 5)`. -/
theorem sin_two_pi_div_five_bounds :
    (0.95105 : ℝ) < Real.sin (2 * (Real.pi / 5)) ∧ Real.sin (2 * (Real.pi / 5)) < 0.95106 := by
  obtain ⟨h1, h2⟩ := sqrt_five_bounds
  have hsq : (√5 : ℝ) ^ 2 = 5 := Real.sq_sqrt (by norm_num)
  have hpos : 0 < Real.sin (2 * (Real.pi / 5)) := by
    apply Real.sin_pos_of_pos_of_lt_pi
    · have := Real.pi_pos; linarith
    · have := Real.pi_pos; linarith
  have hcos : Real.cos (2 * (Real.pi / 5)) = (√5 - 1) / 4 := by
    rw [Real.cos_two_mul, Real.cos_pi_div_five]
    nlinarith
  have hs : Real.sin (2 * (Real.pi / 5)) ^ 2 = (10 + 2 * √5) / 16 := by
    rw [Real.sin_sq, hcos]
    nlinarith
  constructor <;> nlinarith

/-- Claim C10: for the waveform with wavelength 50, amplitude 1 and phase 0,
`Sine` is within `1e-5` of the reference values 0.12533 at `t = 1`, 0.99802 at
`t = 13`, 0.12533 at `t = 24` and -0.95105 at `t = 40`. -/
theorem sine_reference_values :
    |(NewWaveform 50 1 0).Sine 1 - 0.12533| < 1e-5 ∧
    |(NewWaveform 50 1 0).Sine 13 - 0.99802| < 1e-5 ∧
    |(NewWaveform 50 1 0).Sine 24 - 0.12533| < 1e-5 ∧
    |(NewWaveform 50 1 0).Sine 40 - (-0.95105)| < 1e-5 := by
  obtain ⟨ha1, ha2⟩ := sin_pi_div_twenty_five_bounds
  obtain ⟨hc1, hc2⟩ := cos_pi_div_fifty_bounds
  obtain ⟨hb1, hb2⟩ := sin_two_pi_div_five_bounds
  have e1 : (2 * Real.pi * 1 - 0) / 50 = 2 * (Real.pi / 50) := by ring
  have e13 : (2 * Real.pi * 13 - 0) / 50 = Real.pi / 50 + Real.pi / 2 := by ring
  have e24 : (2 * Real.pi * 24 - 0) / 50 = Real.pi - 2 * (Real.pi / 50) := by ring
  have e40 : (2 * Real.pi * 40 - 0) / 50 = 2 * Real.pi - 2 * (Real.pi / 5) := by ring
  have h1 : (NewWaveform 50 1 0).Sine 1 = Real.sin (2 * (Real.pi / 50)) := by
    simp only [Waveform.Sine, NewWaveform, sine, e1, one_mul]
  have h13 : (NewWaveform 50 1 0).Sine 13 = Real.cos (Real.pi / 50) := by
    simp only [Waveform.Sine, NewWaveform, sine, e13, one_mul, Real.sin_add_pi_div_two]
  have h24 : (NewWaveform 50 1 0).Sine 24 = Real.sin (2 * (Real.pi / 50)) := by
    simp only [Waveform.Sine, NewWaveform, sine, e24, one_mul, Real.sin_pi_sub]
  have h40 : (NewWaveform 50 1 0).Sine 40 = -Real.sin (2 * (Real.pi / 5)) := by
    simp only [Waveform.Sine, NewWaveform, sine, e40, one_mul, Real.sin_two_pi_sub]
  rw [h1, h13, h24, h40]
  refine ⟨?_, ?_, ?_, ?_⟩ <;> rw [abs_lt] <;> constructor <;> norm_num <;> linarith

/-! ## The square wave with phase 0 -/

/-- The remainder of a positive number by itself is 0. -/
theorem Mod_self (y : ℝ) (hy : 0 < y) : Mod y y = 0 := by
  unfold Mod trunc
  rw [div_self hy.ne.symm]
  simp

/-- With phase 0 and an exact half, the square generator is high on the first
half of the wavelength. -/
theorem square_high (w a t : ℝ) (hh : half64 w = w / 2) (h1 : 0 ≤ t) (h2 : t < w / 2) :
    square w a 0 t = a := by
  have hm : Mod (t - 0) w = t := by
    rw [sub_zero]
    exact Mod_eq_self t w (by rw [abs_of_nonneg h1]; linarith)
  unfold square
  rw [hm, hh, if_pos h2]

/-- With phase 0 and an exact half, the square generator is low on the second
half of the wavelength. -/
theorem square_low (w a t : ℝ) (hh : half64 w = w / 2) (h1 : w / 2 ≤ t) (h2 : t < w) :
    square w a 0 t = -a := by
  have h0 : 0 ≤ t := by linarith
  have hm : Mod (t - 0) w = t := by
    rw [sub_zero]
    exact Mod_eq_self t w (by rw [abs_of_nonneg h0]; exact h2)
  unfold square
  rw [hm, hh, if_neg (not_lt.mpr h1)]

/-- With phase 0 and an exact half, the square generator is high again at one
full wavelength. -/
theorem square_at_wavelength (w a : ℝ) (hh : half64 w = w / 2) (hw : 0 < w) :
    square w a 0 w = a := by
  unfold square
  rw [sub_zero, Mod_self w hw, hh, if_pos (by linarith)]

/-- The smallest positive float64 halves to 0. -/
theorem half64_smallest : half64 (1 / 2 ^ 1074) = 0 := by
  have hlt : ¬ (1 : ℝ) / 2 ^ 1021 ≤ |(1 : ℝ) / 2 ^ 1074| := by
    rw [abs_of_pos (by positivity), not_le]
    apply one_div_lt_one_div_of_lt (by positivity)
    exact pow_lt_pow_right₀ (by norm_num) (by norm_num)
  have harg : (1 : ℝ) / 2 ^ 1074 / 2 * 2 ^ 1074 = 1 / 2 := by
    field_simp
  have hfl : ⌊(1 : ℝ) / 2⌋ = 0 := by
    rw [Int.floor_eq_iff]
    norm_num
  have hr : roundEven ((1 : ℝ) / 2) = 0 := by
    unfold roundEven
    rw [hfl]
    norm_num
  unfold half64
  rw [if_neg hlt, harg, hr]
  simp

/-- Claim C13, counterexample: the smallest positive float64, `2 ^ (-1074)`, as
the wavelength, with amplitude 1 and phase 0. Its float64 half is 0, so at
`t = 0`, which satisfies `0 ≤ t < w / 2`, the comparison `0 < 0` fails and
`Square(0)` is -1, not the amplitude. -/
theorem square_smallest_wavelength_counterexample :
    (0 : ℝ) < (NewWaveform (1 / 2 ^ 1074) 1 0).wavelength ∧
    (0 : ℝ) < (NewWaveform (1 / 2 ^ 1074) 1 0).wavelength / 2 ∧
    (NewWaveform (1 / 2 ^ 1074) 1 0).Square 0 = -1 ∧
    (NewWaveform (1 / 2 ^ 1074) 1 0).Square 0 ≠ (NewWaveform (1 / 2 ^ 1074) 1 0).amplitude := by
  have hm : Mod ((0 : ℝ) - 0) (1 / 2 ^ 1074) = 0 := by
    unfold Mod trunc
    simp
  have hsq : (NewWaveform (1 / 2 ^ 1074) 1 0).Square 0 = -1 := by
    simp only [Waveform.Square, NewWaveform, square, hm, half64_smallest, lt_irrefl, if_false]
  refine ⟨?_, ?_, hsq, ?_⟩
  · simp only [NewWaveform]
    positivity
  · simp only [NewWaveform]
    positivity
  · rw [hsq]
    simp only [NewWaveform]
    norm_num

/-- Claim C13, amended: with phase 0 and a wavelength `w ≥ 2 ^ (-1021)`, so that
its float64 half is exact, `Square(t) = amplitude` for every `t` with
`0 ≤ t < w / 2` and for `t = w`, and `Square(t) = -amplitude` for every `t` with
`w / 2 ≤ t < w`; and for `w = 50`, amplitude 1,
`Square(1) = Square(13) = Square(24) = 1`, `Square(40) = -1` and
`Square(50) = 1`. -/
theorem square_high_then_low_normal (w a : ℝ) (hw : 1 / 2 ^ 1021 ≤ w) :
    (∀ t : ℝ, 0 ≤ t → t < w / 2 → (NewWaveform w a 0).Square t = a) ∧
    (NewWaveform w a 0).Square w = a ∧
    (∀ t : ℝ, w / 2 ≤ t → t < w → (NewWaveform w a 0).Square t = -a) ∧
    (NewWaveform 50 1 0).Square 1 = 1 ∧
    (NewWaveform 50 1 0).Square 13 = 1 ∧
    (NewWaveform 50 1 0).Square 24 = 1 ∧
    (NewWaveform 50 1 0).Square 40 = -1 ∧
    (NewWaveform 50 1 0).Square 50 = 1 := by
  have hpos : 0 < w := lt_of_lt_of_le (by positivity) hw
  have hh : half64 w = w / 2 := half64_of_normal w (by rw [abs_of_pos hpos]; exact hw)
  have h50 : half64 (50 : ℝ) = 50 / 2 := half64_of_one_le _ (by norm_num [abs_of_pos])
  exact ⟨fun t h1 h2 => square_high w a t hh h1 h2,
    square_at_wavelength w a hh hpos,
    fun t h1 h2 => square_low w a t hh h1 h2,
    square_high 50 1 1 h50 (by norm_num) (by norm_num),
    square_high 50 1 13 h50 (by norm_num) (by norm_num),
    square_high 50 1 24 h50 (by norm_num) (by norm_num),
    square_low 50 1 40 h50 (by norm_num) (by norm_num),
    square_at_wavelength 50 1 h50 (by norm_num)⟩

/-- Witness of `square_high_then_low_normal`: wavelength 50, amplitude 1. -/
theorem square_high_then_low_normal_witness :
    (1 : ℝ) / 2 ^ 1021 ≤ 50 ∧
    (∀ t : ℝ, 0 ≤ t → t < 50 / 2 → (NewWaveform 50 1 0).Square t = 1) ∧
    (NewWaveform 50 1 0).Square 50 = 1 ∧
    (∀ t : ℝ, 50 / 2 ≤ t → t < 50 → (NewWaveform 50 1 0).Square t = -1) ∧
    (NewWaveform 50 1 0).Square 1 = 1 ∧
    (NewWaveform 50 1 0).Square 13 = 1 ∧
    (NewWaveform 50 1 0).Square 24 = 1 ∧
    (NewWaveform 50 1 0).Square 40 = -1 ∧
    (NewWaveform 50 1 0).Square 50 = 1 :=
  have h : (1 : ℝ) / 2 ^ 1021 ≤ 50 := by
    have h1 : (1 : ℝ) / 2 ^ 1021 ≤ 1 := by
      rw [div_le_one (by positivity)]
      exact one_le_pow₀ (by norm_num)
    linarith
  ⟨h, square_high_then_low_normal 50 1 h⟩

/-! ## Values produced by the flows -/

/-- The sawtooth generator stays strictly between `-amplitude` and
`amplitude` when the amplitude is positive. -/
theorem sawtooth_mem_Ioo (wavelength amplitude phase t : ℝ) (ha : 0 < amplitude) :
    -amplitude < sawtooth wavelength amplitude phase t ∧
      sawtooth wavelength amplitude phase t < amplitude := by
  have hpi : 0 < Real.pi := Real.pi_pos
  have hc : 0 < 2 * amplitude / Real.pi := by positivity
  have hval : 2 * amplitude / Real.pi * (Real.pi / 2) = amplitude := by
    field_simp
  unfold sawtooth
  constructor
  · have := mul_lt_mul_of_pos_left (Real.neg_pi_div_two_lt_arctan
      (Real.tan ((2 * Real.pi * t - phase) / (2 * wavelength)))) hc
    rw [mul_neg, hval] at this
    exact this
  · have := mul_lt_mul_of_pos_left (Real.arctan_lt_pi_div_two
      (Real.tan ((2 * Real.pi * t - phase) / (2 * wavelength)))) hc
    rw [hval] at this
    exact this

/-- For wavelength 1000 and phase π the angle at a whole number of
milliseconds is never an odd multiple of a quarter turn: its sine is strictly
between -1 and 1. -/
theorem sin_flow_angle_strict (t : ℤ) :
    -1 < Real.sin ((2 * Real.pi * (t : ℝ) - Real.pi) / 1000) ∧
      Real.sin ((2 * Real.pi * (t : ℝ) - Real.pi) / 1000) < 1 := by
  have hpi : Real.pi ≠ 0 := Real.pi_pos.ne.symm
  have hcos : Real.cos ((2 * Real.pi * (t : ℝ) - Real.pi) / 1000) ≠ 0 := by
    intro h
    obtain ⟨k, hk⟩ := Real.cos_eq_zero_iff.mp h
    have h1 : Real.pi * (2 * (t : ℝ) - 1) = Real.pi * (500 * (2 * (k : ℝ) + 1)) := by
      field_simp at hk
      linarith
    have h2 : 2 * (t : ℝ) - 1 = 500 * (2 * (k : ℝ) + 1) := mul_left_cancel₀ hpi h1
    have h3 : ((2 * t - 1 : ℤ) : ℝ) = ((500 * (2 * k + 1) : ℤ) : ℝ) := by
      push_cast
      exact h2
    have h4 := Int.cast_injective h3
    omega
  have hsq := Real.sin_sq_add_cos_sq ((2 * Real.pi * (t : ℝ) - Real.pi) / 1000)
  have hpos : 0 < Real.cos ((2 * Real.pi * (t : ℝ) - Real.pi) / 1000) ^ 2 := by positivity
  constructor <;> nlinarith

/-- For wavelength 1000, amplitude 1 and phase π, at every whole number of
milliseconds, the sine, triangle and sawtooth generators are strictly between
-1 and 1 and the square generator is between -1 and 1. -/
theorem generators_at_millis (t : ℤ) :
    (-1 < sine 1000 1 Real.pi (t : ℝ) ∧ sine 1000 1 Real.pi (t : ℝ) < 1) ∧
    (-1 < triangle 1000 1 Real.pi (t : ℝ) ∧ triangle 1000 1 Real.pi (t : ℝ) < 1) ∧
    (-1 < sawtooth 1000 1 Real.pi (t : ℝ) ∧ sawtooth 1000 1 Real.pi (t : ℝ) < 1) ∧
    (-1 ≤ square 1000 1 Real.pi (t : ℝ) ∧ square 1000 1 Real.pi (t : ℝ) ≤ 1) := by
  have hpi : 0 < Real.pi := Real.pi_pos
  obtain ⟨hs1, hs2⟩ := sin_flow_angle_strict t
  have hc : 0 < 2 * (1 : ℝ) / Real.pi := by positivity
  have hval : 2 * (1 : ℝ) / Real.pi * (Real.pi / 2) = 1 := by field_simp
  refine ⟨?_, ?_, sawtooth_mem_Ioo 1000 1 Real.pi t one_pos, ?_⟩
  · unfold sine
    constructor <;> linarith
  · unfold triangle
    constructor
    · have := mul_lt_mul_of_pos_left (Real.neg_pi_div_two_lt_arcsin.mpr hs1) hc
      rw [mul_neg, hval] at this
      exact this
    · have := mul_lt_mul_of_pos_left (Real.arcsin_lt_pi_div_two.mpr hs2) hc
      rw [hval] at this
      exact this
  · rcases square_eq_or 1000 1 Real.pi t with h | h <;> rw [h] <;> norm_num

/-- Claim C14: for the waveform of the flow tests (wavelength 1000, amplitude
1, phase π) and every tick, whose timestamp reaches the generator as a whole
number of milliseconds, the value produced by the sine, triangle and sawtooth
flows lies strictly between `-amplitude` and `amplitude` and the value produced
by the square flow lies between `-amplitude` and `amplitude` inclusive; the
same holds of `Sine`, `Triangle`, `Sawtooth` and `Square` at every integer `t`. -/
theorem flow_values_within_amplitude :
    (∀ unixNano : Int,
      (-(NewWaveform 1000 1 Real.pi).amplitude <
          produce (NewWaveform 1000 1 Real.pi) sine unixNano ∧
        produce (NewWaveform 1000 1 Real.pi) sine unixNano <
          (NewWaveform 1000 1 Real.pi).amplitude) ∧
      (-(NewWaveform 1000 1 Real.pi).amplitude <
          produce (NewWaveform 1000 1 Real.pi) triangle unixNano ∧
        produce (NewWaveform 1000 1 Real.pi) triangle unixNano <
          (NewWaveform 1000 1 Real.pi).amplitude) ∧
      (-(NewWaveform 1000 1 Real.pi).amplitude <
          produce (NewWaveform 1000 1 Real.pi) sawtooth unixNano ∧
        produce (NewWaveform 1000 1 Real.pi) sawtooth unixNano <
          (NewWaveform 1000 1 Real.pi).amplitude) ∧
      (-(NewWaveform 1000 1 Real.pi).amplitude ≤
          produce (NewWaveform 1000 1 Real.pi) square unixNano ∧
        produce (NewWaveform 1000 1 Real.pi) square unixNano ≤
          (NewWaveform 1000 1 Real.pi).amplitude)) ∧
    (∀ t : ℤ,
      (-1 < (NewWaveform 1000 1 Real.pi).Sine (t : ℝ) ∧
        (NewWaveform 1000 1 Real.pi).Sine (t : ℝ) < 1) ∧
      (-1 < (NewWaveform 1000 1 Real.pi).Triangle (t : ℝ) ∧
        (NewWaveform 1000 1 Real.pi).Triangle (t : ℝ) < 1) ∧
      (-1 < (NewWaveform 1000 1 Real.pi).Sawtooth (t : ℝ) ∧
        (NewWaveform 1000 1 Real.pi).Sawtooth (t : ℝ) < 1) ∧
      (-1 ≤ (NewWaveform 1000 1 Real.pi).Square (t : ℝ) ∧
        (NewWaveform 1000 1 Real.pi).Square (t : ℝ) ≤ 1)) :=
  ⟨fun unixNano => generators_at_millis (tickMillis unixNano),
    fun t => generators_at_millis t⟩

/-! ## Construction, stopping twice, and the producers -/

/-- Claim C15: for every wavelength, amplitude and phase, `NewWaveform` gives
an instance whose running flag is false and which stores the three parameters
as given; the zero value `Waveform{}` has the flag false too. -/
theorem newWaveform_idle (wavelength amplitude phase : ℝ) :
    (NewWaveform wavelength amplitude phase).flowRunning = false ∧
    Waveform.zero.flowRunning = false ∧
    (NewWaveform wavelength amplitude phase).wavelength = wavelength ∧
    (NewWaveform wavelength amplitude phase).amplitude = amplitude ∧
    (NewWaveform wavelength amplitude phase).phase = phase :=
  ⟨rfl, rfl, rfl, rfl, rfl⟩

/-- A step of the producer never enters the closed state. -/
theorem producerStep_ne_closed (wv : Waveform) (g : generator) (s : ProducerState)
    (e : ProducerEvent) (hs : s ≠ ProducerState.closed) :
    producerStep wv g s e ≠ ProducerState.closed := by
  cases s <;> cases e <;> simp_all [producerStep]

/-- No sequence of steps takes the producer from an open state to the closed
state. -/
theorem producer_foldl_ne_closed (wv : Waveform) (g : generator)
    (events : List ProducerEvent) :
    ∀ s : ProducerState, s ≠ ProducerState.closed →
      events.foldl (producerStep wv g) s ≠ ProducerState.closed := by
  induction events with
  | nil => intro s hs; simpa using hs
  | cons e rest ih =>
    intro s hs
    rw [List.foldl_cons]
    exact ih _ (producerStep_ne_closed wv g s e hs)

/-- Claim C16, the code on every schedule: whatever the instance (stopped or
not), the generator and the sequence of ticks and deliveries, the producer
goroutine is never in the state where `close(out)` has run. -/
theorem producer_never_closes (wv : Waveform) (g : generator)
    (events : List ProducerEvent) :
    producerRun wv g events ≠ ProducerState.closed :=
  producer_foldl_ne_closed wv g events ProducerState.receiving (by simp)

/-- Claim C17, the code at the failing input: a fresh instance is started
with 10 ms, stopped and started again. Both starts succeed, the instance is
running, and two producer goroutines are alive. -/
theorem two_producers_after_restart :
    ∃ (r1 : RunResult) (wv2 : Waveform) (r2 : RunResult),
      SineFlow (NewWaveform 1000 1 Real.pi) Runtime.empty 10 = .ok r1 ∧ r1.err = none ∧
      r1.rt.live = 1 ∧
      StopFlow r1.wv = .ok wv2 ∧
      SineFlow wv2 r1.rt 10 = .ok r2 ∧ r2.err = none ∧
      r2.wv.flowRunning = true ∧ r2.rt.live = 2 :=
  ⟨_, _, _, run_idle _ _ 10 sine rfl (by decide) (by decide), rfl, rfl, rfl,
    run_idle _ _ 10 sine rfl (by decide) (by decide), rfl, rfl, rfl⟩

/-- An instance that has been started has a ticker. -/
theorem Started.ticker_ne_none {wv : Waveform} (h : Started wv) : wv.ticker ≠ none := by
  induction h with
  | @start wv rt interval g r hrun herr =>
    unfold run at hrun
    split_ifs at hrun with hf
    · cases hrun
      simp at herr
    · unfold NewTicker at hrun
      split_ifs at hrun with hd
      cases hrun
      simp
  | @again wv rt interval g r _ hrun ih =>
    unfold run at hrun
    split_ifs at hrun with hf
    · cases hrun
      exact ih
    · unfold NewTicker at hrun
      split_ifs at hrun with hd
      cases hrun
      simp
  | @stop wv wv1 _ hstop ih =>
    unfold StopFlow at hstop
    cases htk : wv.ticker with
    | none => exact absurd htk ih
    | some tk =>
      simp only [htk, Ticker.Stop] at hstop
      cases hstop
      simp

/-- Stopping an instance that has a ticker, once or twice, gives the same
instance: flag cleared, that ticker stopped, parameters untouched. -/
theorem StopFlow_twice (wv : Waveform) (tk : Ticker) (htk : wv.ticker = some tk) :
    StopFlow wv =
      .ok { wv with flowRunning := false, ticker := some { tk with stopped := true } } ∧
    StopFlow { wv with flowRunning := false, ticker := some { tk with stopped := true } } =
      .ok { wv with flowRunning := false, ticker := some { tk with stopped := true } } := by
  constructor
  · simp [StopFlow, htk, Ticker.Stop]
  · simp [StopFlow, Ticker.Stop]

/-- Claim C18: on an instance that has been started at least once, two calls
of `StopFlow` in a row both return, and the instance after the second call is
the instance after the first: flag false, the same ticker, stopped, and the
same parameters. -/
theorem stopFlow_idempotent (wv : Waveform) (h : Started wv) :
    ∃ (wv1 : Waveform) (tk : Ticker), wv.ticker = some tk ∧
      StopFlow wv = .ok wv1 ∧ StopFlow wv1 = .ok wv1 ∧
      wv1.flowRunning = false ∧ wv1.ticker = some { tk with stopped := true } ∧
      wv1.wavelength = wv.wavelength ∧ wv1.amplitude = wv.amplitude ∧
      wv1.phase = wv.phase := by
  obtain ⟨tk, htk⟩ := Option.ne_none_iff_exists'.mp h.ticker_ne_none
  obtain ⟨h1, h2⟩ := StopFlow_twice wv tk htk
  exact ⟨_, tk, htk, h1, h2, rfl, rfl, rfl, rfl, rfl⟩

/-- Witness of `stopFlow_idempotent`: the instance that a start with 10 ms
leaves of `NewWaveform 50 1 0`. -/
theorem stopFlow_idempotent_witness :
    Started startedWaveform ∧
    ∃ (wv1 : Waveform) (tk : Ticker), startedWaveform.ticker = some tk ∧
      StopFlow startedWaveform = .ok wv1 ∧ StopFlow wv1 = .ok wv1 ∧
      wv1.flowRunning = false ∧ wv1.ticker = some { tk with stopped := true } ∧
      wv1.wavelength = startedWaveform.wavelength ∧
      wv1.amplitude = startedWaveform.amplitude ∧
      wv1.phase = startedWaveform.phase :=
  have hs : Started startedWaveform :=
    Started.start (run_idle (NewWaveform 50 1 0) Runtime.empty 10 sine rfl
      (by decide) (by decide)) rfl
  ⟨hs, stopFlow_idempotent startedWaveform hs⟩

/-! ## Phase -/

/-- Claim C19, the code at the failing input: wavelength 4, amplitude 1,
phase 1 and `t = 1`. The sine, triangle and sawtooth waves with phase 1 at
time 1 are positive, while with phase 0 at time `t - 1 = 0` they are 0: the
phase is subtracted from the angle `2π t`, not from the time. The square wave,
which subtracts the phase from `t`, has the same value both ways. -/
theorem phase_shifts_angle_not_time :
    (0 : ℝ) < (NewWaveform 4 1 1).wavelength ∧
    (NewWaveform 4 1 1).Sine 1 ≠ (NewWaveform 4 1 0).Sine (1 - 1) ∧
    (NewWaveform 4 1 1).Triangle 1 ≠ (NewWaveform 4 1 0).Triangle (1 - 1) ∧
    (NewWaveform 4 1 1).Sawtooth 1 ≠ (NewWaveform 4 1 0).Sawtooth (1 - 1) ∧
    (NewWaveform 4 1 1).Square 1 = (NewWaveform 4 1 0).Square (1 - 1) := by
  have hpi : 0 < Real.pi := Real.pi_pos
  have hpi3 := Real.pi_gt_three
  have hx0 : 0 < (2 * Real.pi * 1 - 1) / 4 := by linarith
  have hx1 : (2 * Real.pi * 1 - 1) / 4 < Real.pi / 2 := by linarith
  have hy0 : 0 < (2 * Real.pi * 1 - 1) / (2 * 4) := by linarith
  have hy1 : (2 * Real.pi * 1 - 1) / (2 * 4) < Real.pi / 2 := by linarith
  have hc : 0 < 2 * (1 : ℝ) / Real.pi := by positivity
  have s0 : (NewWaveform 4 1 0).Sine (1 - 1) = 0 := by
    simp [Waveform.Sine, NewWaveform, sine]
  have t0 : (NewWaveform 4 1 0).Triangle (1 - 1) = 0 := by
    simp [Waveform.Triangle, NewWaveform, triangle]
  have w0 : (NewWaveform 4 1 0).Sawtooth (1 - 1) = 0 := by
    simp [Waveform.Sawtooth, NewWaveform, sawtooth]
  have s1 : 0 < (NewWaveform 4 1 1).Sine 1 := by
    simp only [Waveform.Sine, NewWaveform, sine, one_mul]
    exact Real.sin_pos_of_pos_of_lt_pi hx0 (by linarith)
  have t1 : 0 < (NewWaveform 4 1 1).Triangle 1 := by
    simp only [Waveform.Triangle, NewWaveform, triangle]
    rw [Real.arcsin_sin (by linarith) hx1.le]
    exact mul_pos hc hx0
  have w1 : 0 < (NewWaveform 4 1 1).Sawtooth 1 := by
    simp only [Waveform.Sawtooth, NewWaveform, sawtooth]
    rw [Real.arctan_tan (by linarith) hy1]
    exact mul_pos hc hy0
  refine ⟨by simp [NewWaveform], ?_, ?_, ?_, ?_⟩
  · rw [s0]; exact s1.ne.symm
  · rw [t0]; exact t1.ne.symm
  · rw [w0]; exact w1.ne.symm
  · simp only [Waveform.Square, NewWaveform, square, sub_zero]

end waveforms
